import Mathlib

/-!
Shallow embedding of `shllm.go` (jrabinow/shllm): the conversation data model,
the JSON archive codec (Go `encoding/json` on the `Message` / `Conversation` /
`ConversationList` structs, including `time.Time`'s RFC3339 JSON behavior),
the durable-append routine `saveConversation` with its fail-whale recovery
closure, the model-exchange step of `llmUpdateConvo`, and the session-file
path derivation (`expandUser`, `notesDir`, `getSessionFilePath`).

Byte strings are abstracted by the inductive `Bytes`: `Bytes.jsonText j` is
the canonical serialization of the JSON tree `j`, `Bytes.raw t` is a
non-empty byte string that is not valid JSON, `Bytes.nil` is the empty byte
string.  Only emptiness of a byte string is ever inspected by the Go code
(`len(data) == 0`, `nbytes <= 0`), which `byteLen` reflects.
-/

namespace Shllm

/-- JSON trees, the parse result of `encoding/json`. -/
inductive Json where
  | null
  | str (s : String)
  | num (q : Rat)
  | arr (xs : List Json)
  | obj (fields : List (String × Json))

/-- Abstracted byte strings (see the module docstring). -/
inductive Bytes where
  | nil
  | raw (tag : Nat)
  | jsonText (j : Json)

/-- Abstract length of a byte string: the Go code only ever compares lengths
with zero, so non-empty contents are all given length 1.  `raw` byte strings
are non-empty by construction (`Bytes.nil` is the empty one), and a marshaled
JSON document is never empty. -/
def byteLen : Bytes → Nat
  | Bytes.nil => 0
  | Bytes.raw _ => 1
  | Bytes.jsonText _ => 1

/-- Go `time.Time` as far as its JSON round-trip is concerned: the year, and
the rest of its RFC3339 text (month through time zone).  `time.Time.MarshalJSON`
formats the year as exactly four digits and fails for years outside
`[0, 9999]`; parsing reads four digits back.  The `tail` is kept as opaque
text (Go additionally validates it; the model accepts more strings, which
only widens the domain on which decoding succeeds). -/
structure GoTime where
  year : Int
  tail : String

/-- The zero `time.Time`, which serializes as `0001-01-01T00:00:00Z`. -/
def zeroGoTime : GoTime := { year := 1, tail := "-01-01T00:00:00Z" }

/-- `Message` struct of `shllm.go` (json tags role/content/timestamp). -/
structure Message where
  Role : String
  Content : String
  Timestamp : GoTime

/-- `Conversation` struct of `shllm.go` (json tags messages/title). -/
structure Conversation where
  Messages : List Message
  Title : String

/-- `ConversationList` struct of `shllm.go` (json tags version/conversations).
`Version` is a `float32` in Go; it is modeled as an exact rational, which
matches Go's shortest-round-tripping float formatting at the JSON-tree level. -/
structure ConversationList where
  Version : Rat
  Conversations : List Conversation

/-- The digit character for `d < 10` (ASCII `'0' + d`). -/
def digitChar (d : Nat) : Char := Char.ofNat (48 + d)

/-- Numeric value of an ASCII digit character. -/
def digitVal (c : Char) : Nat := c.toNat - 48

/-- `time.Time.MarshalJSON` (modulo the surrounding quotes): four-digit year
followed by the rest of the RFC3339 text; errors for a year outside
`[0, 9999]`. -/
def encodeRFC3339 (t : GoTime) : Option String :=
  if t.year < 0 ∨ 9999 < t.year then none
  else
    let n := t.year.toNat
    some (String.mk (digitChar (n / 1000) :: digitChar (n / 100 % 10) ::
      digitChar (n / 10 % 10) :: digitChar (n % 10) :: t.tail.data))

/-- `time.Time.UnmarshalJSON` (modulo the surrounding quotes): read a
four-digit year, keep the rest of the text. -/
def decodeRFC3339 (s : String) : Option GoTime :=
  match s.data with
  | c1 :: c2 :: c3 :: c4 :: rest =>
    if c1.isDigit && c2.isDigit && c3.isDigit && c4.isDigit then
      some { year := Int.ofNat (((digitVal c1 * 10 + digitVal c2) * 10 +
               digitVal c3) * 10 + digitVal c4),
             tail := String.mk rest }
    else none
  | _ => none

/-- Monadic map over `Option`, mirroring Go's element-wise encode/decode of a
JSON array (first failure aborts). -/
def mapMo {α β : Type} (f : α → Option β) : List α → Option (List β)
  | [] => some []
  | x :: xs =>
    match f x with
    | none => none
    | some y =>
      match mapMo f xs with
      | none => none
      | some ys => some (y :: ys)

/-- Field lookup in a JSON object, later duplicates winning as in
`encoding/json`. -/
def jLookup (fields : List (String × Json)) (k : String) : Option Json :=
  fields.foldl (fun acc p => if p.1 = k then some p.2 else acc) none

/-- Decode a string-typed struct field: absent or `null` leaves the zero
value `""`; a non-string value is an unmarshal error. -/
def getStrField (fields : List (String × Json)) (k : String) : Option String :=
  match jLookup fields k with
  | none => some ""
  | some Json.null => some ""
  | some (Json.str s) => some s
  | some _ => none

/-- Decode a `time.Time` struct field: absent or `null` leaves the zero time;
a non-string value or unparsable text is an unmarshal error. -/
def getTimeField (fields : List (String × Json)) (k : String) : Option GoTime :=
  match jLookup fields k with
  | none => some zeroGoTime
  | some Json.null => some zeroGoTime
  | some (Json.str s) => decodeRFC3339 s
  | some _ => none

/-- Decode a numeric struct field: absent or `null` leaves the zero value. -/
def getNumField (fields : List (String × Json)) (k : String) : Option Rat :=
  match jLookup fields k with
  | none => some 0
  | some Json.null => some 0
  | some (Json.num q) => some q
  | some _ => none

/-- Decode a slice-typed struct field: absent or `null` leaves the nil
slice. -/
def getArrField (fields : List (String × Json)) (k : String) : Option (List Json) :=
  match jLookup fields k with
  | none => some []
  | some Json.null => some []
  | some (Json.arr xs) => some xs
  | some _ => none

/-- `json.Marshal` of a `Message` value, at the JSON-tree level.  Fields in
Go struct order. -/
def encodeMessage (m : Message) : Option Json :=
  match encodeRFC3339 m.Timestamp with
  | none => none
  | some ts =>
    some (Json.obj [("role", Json.str m.Role), ("content", Json.str m.Content),
      ("timestamp", Json.str ts)])

/-- `json.Unmarshal` into a `Message`. -/
def decodeMessage : Json → Option Message
  | Json.null => some { Role := "", Content := "", Timestamp := zeroGoTime }
  | Json.obj fields =>
    match getStrField fields "role" with
    | none => none
    | some role =>
      match getStrField fields "content" with
      | none => none
      | some content =>
        match getTimeField fields "timestamp" with
        | none => none
        | some ts => some { Role := role, Content := content, Timestamp := ts }
  | _ => none

/-- `json.Marshal` of a `Conversation` value.  (Go marshals a nil `Messages`
slice as `null`; the decoder treats `null` and `[]` identically, so the model
uniformly emits an array.) -/
def encodeConversation (c : Conversation) : Option Json :=
  match mapMo encodeMessage c.Messages with
  | none => none
  | some msgs =>
    some (Json.obj [("messages", Json.arr msgs), ("title", Json.str c.Title)])

/-- `json.Unmarshal` into a `Conversation`. -/
def decodeConversation : Json → Option Conversation
  | Json.null => some { Messages := [], Title := "" }
  | Json.obj fields =>
    match getArrField fields "messages" with
    | none => none
    | some msgsJ =>
      match mapMo decodeMessage msgsJ with
      | none => none
      | some msgs =>
        match getStrField fields "title" with
        | none => none
        | some title => some { Messages := msgs, Title := title }
  | _ => none

/-- `json.Marshal` of a `ConversationList` (the Archive). -/
def encodeConversationList (a : ConversationList) : Option Json :=
  match mapMo encodeConversation a.Conversations with
  | none => none
  | some convs =>
    some (Json.obj [("version", Json.num a.Version),
      ("conversations", Json.arr convs)])

/-- `json.Unmarshal` into a `ConversationList`. -/
def decodeConversationList : Json → Option ConversationList
  | Json.null => some { Version := 0, Conversations := [] }
  | Json.obj fields =>
    match getNumField fields "version" with
    | none => none
    | some v =>
      match getArrField fields "conversations" with
      | none => none
      | some convsJ =>
        match mapMo decodeConversation convsJ with
        | none => none
        | some convs => some { Version := v, Conversations := convs }
  | _ => none

/-- Parsing bytes as JSON text: only well-formed JSON text parses; the empty
byte string is a parse error in Go (`unexpected end of JSON input`). -/
def parseBytes : Bytes → Option Json
  | Bytes.jsonText j => some j
  | _ => none

/-- `json.Unmarshal(data, &convoList)`. -/
def unmarshalArchive (b : Bytes) : Option ConversationList :=
  match parseBytes b with
  | none => none
  | some j => decodeConversationList j

/-- `json.Marshal(convoList)` down to bytes. -/
def marshalArchive (a : ConversationList) : Option Bytes :=
  match encodeConversationList a with
  | none => none
  | some j => some (Bytes.jsonText j)

/-- `json.Marshal(*convo)` down to bytes (the fail-whale fallback). -/
def marshalConversation (c : Conversation) : Option Bytes :=
  match encodeConversation c with
  | none => none
  | some j => some (Bytes.jsonText j)

/-! ## File-system model for `saveConversation`

A file system is an association list from paths to files.  A file carries its
content together with how a read of it behaves (`os.ReadFile` can succeed,
fail opening — e.g. a permission error, returning no data — or fail partway
through an I/O error, returning the prefix read so far) and whether a rewrite
of it (`os.WriteFile`, which truncates) succeeds.  The fresh name chosen by
`ioutil.TempFile` and whether the working directory admits creating it are
passed in as parameters (`tempName`, `cwdOk`), reflecting the environment's
nondeterminism.  Writes to a successfully created temp file are assumed to
transfer all supplied bytes (so `Write` reports an error or a short count
only for the empty input, where it returns a zero count). -/

/-- Outcome of `os.ReadFile` on an existing file. -/
inductive ReadBehavior where
  | ok
  | permDenied
  | ioError (partialData : Bytes)

/-- One file: content, read behavior, writability. -/
structure FileInfo where
  data : Bytes
  readBehavior : ReadBehavior
  writable : Bool

/-- A file system: association list from path to file. -/
abbrev FS := List (String × FileInfo)

/-- Look a path up (first binding wins). -/
def fsGet (fs : FS) (p : String) : Option FileInfo :=
  match fs with
  | [] => none
  | (q, fi) :: rest => if q = p then some fi else fsGet rest p

/-- Create or overwrite the file at a path. -/
def fsSet (fs : FS) (p : String) (fi : FileInfo) : FS :=
  match fs with
  | [] => [(p, fi)]
  | (q, g) :: rest => if q = p then (p, fi) :: rest else (q, g) :: fsSet rest p fi

/-- Error class of an `os.ReadFile` call, as distinguished by the Go code
(`err == nil`, `os.IsNotExist(err)`, any other error). -/
inductive ReadErr where
  | ok
  | notExist
  | other
deriving DecidableEq

/-- `os.ReadFile(filePath)`: data returned together with the error class. -/
def readFile (fs : FS) (p : String) : Bytes × ReadErr :=
  match fsGet fs p with
  | none => (Bytes.nil, ReadErr.notExist)
  | some fi =>
    match fi.readBehavior with
    | ReadBehavior.ok => (fi.data, ReadErr.ok)
    | ReadBehavior.permDenied => (Bytes.nil, ReadErr.other)
    | ReadBehavior.ioError p => (p, ReadErr.other)

/-- `os.WriteFile(filePath, data, 0644)`: truncating rewrite; creating a new
file succeeds, rewriting an existing one succeeds iff it is writable.
Returns the updated file system and whether the write succeeded. -/
def writeFile (fs : FS) (p : String) (b : Bytes) : FS × Bool :=
  match fsGet fs p with
  | none => (fsSet fs p { data := b, readBehavior := ReadBehavior.ok, writable := true }, true)
  | some fi =>
    if fi.writable then
      (fsSet fs p { fi with data := b }, true)
    else (fs, false)

/-- How the `failWhale` closure ends: the recovery file was written (its name
is returned for the caller's panic message), or one of its own panics fired
(`"the fail whale failed opening tempfile"`, `"the fail whale failed
marshalling data"`). -/
inductive WhaleOut where
  | saved (name : String)
  | fatalOpenTemp
  | fatalMarshal

/-- The `failWhale` closure of `saveConversation`: create a temp file in the
working directory, write `writeData` to it; if that writes no bytes (in
particular for the `nil` slice passed on the read/decode failure paths), fall
back to marshalling just the new conversation and writing that; a failing
fallback marshal panics.  (The fallback write itself cannot come up short
here: a successful conversation marshal is non-empty.) -/
def failWhale (fs : FS) (writeData : Bytes) (convo : Conversation)
    (tempName : String) (cwdOk : Bool) : FS × WhaleOut :=
  if cwdOk then
    if byteLen writeData > 0 then
      (fsSet fs tempName { data := writeData, readBehavior := ReadBehavior.ok, writable := true },
       WhaleOut.saved tempName)
    else
      match marshalConversation convo with
      | none =>
        (fsSet fs tempName { data := Bytes.nil, readBehavior := ReadBehavior.ok, writable := true },
         WhaleOut.fatalMarshal)
      | some fb =>
        (fsSet fs tempName { data := fb, readBehavior := ReadBehavior.ok, writable := true },
         WhaleOut.saved tempName)
  else (fs, WhaleOut.fatalOpenTemp)

/-- How `saveConversation` ends: normal return, or one of its `panic` calls.
The three `panic(...)` messages that name a recovery file ("error reading
data...", "error unmarshalling data...", "error writing file...; Your
conversation was saved in the current directory: NAME") carry the recovery
file name; the fail whale's own panics carry none. -/
inductive SaveOut where
  | ok
  | panicRead (recovery : String)
  | panicDecode (recovery : String)
  | panicWrite (recovery : String)
  | fatalOpenTemp
  | fatalMarshal

/-- Whether the outcome is a panic that names a recovery file (the spec's
`ArchiveUnavailableError` carrying the recovery location). -/
def SaveOut.namesRecovery : SaveOut → Bool
  | SaveOut.panicRead _ => true
  | SaveOut.panicDecode _ => true
  | SaveOut.panicWrite _ => true
  | _ => false

/-- Wrap a `failWhale` call into the panic that follows it. -/
def whaleResult (p : FS × WhaleOut) (mk : String → SaveOut) : FS × SaveOut :=
  match p.2 with
  | WhaleOut.saved n => (p.1, mk n)
  | WhaleOut.fatalOpenTemp => (p.1, SaveOut.fatalOpenTemp)
  | WhaleOut.fatalMarshal => (p.1, SaveOut.fatalMarshal)

/-- The literal default content `{"version": 1.0}` substituted for a missing
or empty archive file. -/
def defaultArchive : Json := Json.obj [("version", Json.num 1)]

/-- Tail of `saveConversation` after the read: `json.Unmarshal` the (possibly
defaulted) data, append the conversation, `json.Marshal` — whose error the Go
code discards (`writeData, err := json.Marshal(convoList)` is immediately
followed by `err = os.WriteFile(...)`), so a failed marshal yields the nil
slice — and `os.WriteFile`, with the fail whale on a write error. -/
def saveConversationRest (fs : FS) (filePath : String) (convo : Conversation)
    (tempName : String) (cwdOk : Bool) (data : Bytes) : FS × SaveOut :=
  match unmarshalArchive data with
  | none => whaleResult (failWhale fs Bytes.nil convo tempName cwdOk) SaveOut.panicDecode
  | some convoList =>
    let merged : ConversationList :=
      { Version := convoList.Version,
        Conversations := convoList.Conversations ++ [convo] }
    let writeData : Bytes := (marshalArchive merged).getD Bytes.nil
    let wr := writeFile fs filePath writeData
    if wr.2 then (wr.1, SaveOut.ok)
    else whaleResult (failWhale fs writeData convo tempName cwdOk) SaveOut.panicWrite

/-- `saveConversation(filePath, convo)` of `shllm.go`: read the archive file;
a missing file or empty data is replaced by the default `{"version": 1.0}`;
any other read error runs the fail whale and panics; then decode, append,
re-encode and rewrite as in `saveConversationRest`.  Note the Go condition
order: a read error whose returned data is empty (e.g. a permission error on
open) satisfies `len(data) == 0` and is treated as the empty-archive case. -/
def saveConversation (fs : FS) (filePath : String) (convo : Conversation)
    (tempName : String) (cwdOk : Bool) : FS × SaveOut :=
  let r := readFile fs filePath
  if r.2 = ReadErr.notExist ∨ byteLen r.1 = 0 then
    saveConversationRest fs filePath convo tempName cwdOk (Bytes.jsonText defaultArchive)
  else if r.2 ≠ ReadErr.ok then
    whaleResult (failWhale fs Bytes.nil convo tempName cwdOk) SaveOut.panicRead
  else
    saveConversationRest fs filePath convo tempName cwdOk r.1

/-! ## Model exchange (`llmUpdateConvo`)

Modeled from the decoded upstream response onward (network and body-parse
failures panic earlier in the Go function and do not reach this logic). -/

/-- One element of the `choices` array of the upstream response. -/
structure LlmChoice where
  Message : Message

/-- The `llmResponse` struct of `shllm.go`. -/
structure LlmResponse where
  Choices : List LlmChoice

/-- How the candidate-handling tail of `llmUpdateConvo` ends. -/
inductive ExchangeOutcome where
  | ok (c : Conversation)
  | panicAssertionFailed
  | panicIndexOutOfRange

/-- The candidate handling of `llmUpdateConvo`: assert
`len(choices) >= 0 && len(choices) <= 1`, then stamp `choices[0].Message`
with the current time and append it to the conversation.  Indexing `[0]` into
an empty slice is Go's index-out-of-range runtime panic. -/
def llmUpdateConvo (convo : Conversation) (resp : LlmResponse) (now : GoTime) :
    ExchangeOutcome :=
  let choices := resp.Choices
  if ¬ (choices.length ≥ 0 ∧ choices.length ≤ 1) then
    ExchangeOutcome.panicAssertionFailed
  else
    match choices with
    | [] => ExchangeOutcome.panicIndexOutOfRange
    | c :: _ =>
      ExchangeOutcome.ok
        { convo with Messages := convo.Messages ++ [{ c.Message with Timestamp := now }] }

/-! ## Session-file path derivation -/

/-- `strings.HasPrefix`. -/
def goStartsWith (s pre : String) : Bool := pre.data.isPrefixOf s.data

/-- `filepath.Join` on two elements.  (Go additionally runs `Clean` on the
result; `Clean` is the identity on the already-clean inputs joined here.) -/
def goJoin (a b : String) : String :=
  if a = "" then b else if b = "" then a else a ++ "/" ++ b

/-- `expandUser` of `shllm.go`: `"~"` becomes the home directory, a leading
`"~/"` is replaced by joining onto the home directory, anything else is
returned unchanged. -/
def expandUser (path home : String) : String :=
  if path = "~" then home
  else if goStartsWith path "~/" then goJoin home (String.mk (path.data.drop 2))
  else path

/-- `notesDir` of `shllm.go`: the `notes` environment variable (empty string
when unset, as `os.Getenv` returns), user-expanded. -/
def notesDir (env : String → String) (home : String) : String :=
  expandUser (env "notes") home

/-- `getSessionFilePath` of `shllm.go`.  `env` is the process environment,
`home` the current user's home directory, `today` the current date formatted
`YYYY-MM-DD`.  Returns the chosen path together with the list of directories
passed to `ensureDir` (created if absent) along the way. -/
def getSessionFilePath (filePath : String) (env : String → String)
    (home today : String) : String × List String :=
  if filePath ≠ "" then (filePath, [])
  else
    let nd := notesDir env home
    let fileName := today ++ ".json"
    let archiveDir := goJoin nd "shllm"
    (goJoin archiveDir fileName, [archiveDir])

/-! ## Concrete sample values used by the witnesses and counterexamples -/

/-- A JSON-encodable timestamp. -/
def wTime : GoTime := { year := 2024, tail := "-05-01T10:00:00Z" }

/-- A conversation whose encoding succeeds. -/
def wConv : Conversation :=
  { Messages := [{ Role := "user", Content := "hello", Timestamp := wTime }], Title := "t" }

/-- A timestamp `time.Time.MarshalJSON` rejects (year 10000). -/
def wBadTime : GoTime := { year := 10000, tail := "-01-01T00:00:00Z" }

/-- A conversation whose encoding fails (out-of-range timestamp year). -/
def wBadConv : Conversation :=
  { Messages := [{ Role := "user", Content := "x", Timestamp := wBadTime }], Title := "bad" }

/-- A second timestamp `time.Time.MarshalJSON` rejects (year 12000). -/
def wBadTime2 : GoTime := { year := 12000, tail := "-01-01T00:00:00Z" }

/-- A second unencodable conversation (year 12000). -/
def wBadConv2 : Conversation :=
  { Messages := [{ Role := "user", Content := "y", Timestamp := wBadTime2 }], Title := "bad2" }

/-- An archive with one conversation. -/
def wArch : ConversationList := { Version := 1, Conversations := [wConv] }

/-- File system: `a.json` holds non-empty bytes that are not valid JSON. -/
def wFS1 : FS := [("a.json", ⟨Bytes.raw 0, ReadBehavior.ok, true⟩)]

/-- File system: `c.json` holds the default archive and is writable. -/
def wFS2 : FS := [("c.json", ⟨Bytes.jsonText defaultArchive, ReadBehavior.ok, true⟩)]

/-- File system: `e.json` is unreadable (open fails with a permission error)
but writable. -/
def wFS5 : FS := [("e.json", ⟨Bytes.raw 1, ReadBehavior.permDenied, true⟩)]

/-- File system: reading `f.json` fails partway with non-empty partial data. -/
def wFS5b : FS := [("f.json", ⟨Bytes.raw 2, ReadBehavior.ioError (Bytes.raw 3), true⟩)]

/-- File system: `b.json` holds the default archive and is not writable. -/
def wFS6 : FS := [("b.json", ⟨Bytes.jsonText defaultArchive, ReadBehavior.ok, false⟩)]

/-- File system: `d.json` holds the default archive and is writable. -/
def wFS7 : FS := [("d.json", ⟨Bytes.jsonText defaultArchive, ReadBehavior.ok, true⟩)]

/-- File system: `g.json` holds undecodable bytes. -/
def wFS10 : FS := [("g.json", ⟨Bytes.raw 4, ReadBehavior.ok, true⟩)]

/-- File system: `h.json` holds the default archive and is writable. -/
def wFS2b : FS := [("h.json", ⟨Bytes.jsonText defaultArchive, ReadBehavior.ok, true⟩)]

/-- A sample environment mapping for the path-derivation witness. -/
def wEnv : String → String := fun _ => "~/n"

/-! ## Codec round-trip lemmas -/

theorem digitChar_isDigit : ∀ d : Nat, d < 10 → (digitChar d).isDigit = true := by
  decide

theorem digitVal_digitChar : ∀ d : Nat, d < 10 → digitVal (digitChar d) = d := by
  decide

/-- Evaluation of `decodeRFC3339` on a string with at least four
characters. -/
theorem decodeRFC3339_cons (c1 c2 c3 c4 : Char) (rest : List Char) :
    decodeRFC3339 (String.mk (c1 :: c2 :: c3 :: c4 :: rest)) =
    (if c1.isDigit && c2.isDigit && c3.isDigit && c4.isDigit then
      some { year := Int.ofNat (((digitVal c1 * 10 + digitVal c2) * 10 +
               digitVal c3) * 10 + digitVal c4),
             tail := String.mk rest }
    else none) := rfl

/-- Decoding inverts a successful `time.Time` encode. -/
theorem decode_encode_time (t : GoTime) (s : String)
    (h : encodeRFC3339 t = some s) : decodeRFC3339 s = some t := by
  unfold encodeRFC3339 at h
  by_cases hr : t.year < 0 ∨ 9999 < t.year
  · simp [hr] at h
  · simp only [hr, if_false] at h
    have hy0 : 0 ≤ t.year := by omega
    have hy9 : t.year ≤ 9999 := by omega
    set n := t.year.toNat with hn
    have hn9 : n ≤ 9999 := by omega
    have h1 : n / 1000 < 10 := by omega
    have h2 : n / 100 % 10 < 10 := by omega
    have h3 : n / 10 % 10 < 10 := by omega
    have h4 : n % 10 < 10 := by omega
    cases h
    rw [decodeRFC3339_cons]
    simp only [digitChar_isDigit _ h1, digitChar_isDigit _ h2, digitChar_isDigit _ h3,
      digitChar_isDigit _ h4, Bool.and_self, if_true,
      digitVal_digitChar _ h1, digitVal_digitChar _ h2, digitVal_digitChar _ h3,
      digitVal_digitChar _ h4]
    have hval : ((n / 1000 * 10 + n / 100 % 10) * 10 + n / 10 % 10) * 10 + n % 10 = n := by
      omega
    rw [hval]
    have hyear : Int.ofNat n = t.year := by
      rw [hn]
      simpa using Int.toNat_of_nonneg hy0
    rw [hyear]

/-- `mapMo` round-trip: if `g` inverts `f` elementwise, decoding a list
inverts encoding it. -/
theorem mapMo_inv {α β : Type} (f : α → Option β) (g : β → Option α)
    (H : ∀ a b, f a = some b → g b = some a) :
    ∀ (xs : List α) (ys : List β), mapMo f xs = some ys → mapMo g ys = some xs := by
  intro xs
  induction xs with
  | nil =>
    intro ys h
    unfold mapMo at h
    cases h
    rfl
  | cons x xs ih =>
    intro ys h
    unfold mapMo at h
    cases hf : f x with
    | none => rw [hf] at h; cases h
    | some y =>
      rw [hf] at h
      cases hm : mapMo f xs with
      | none => rw [hm] at h; cases h
      | some ys' =>
        rw [hm] at h
        cases h
        unfold mapMo
        rw [H x y hf, ih ys' hm]

/-- Evaluation of `decodeMessage` on an encoder-shaped object. -/
theorem decodeMessage_enc (r c ts : String) :
    decodeMessage (Json.obj [("role", Json.str r), ("content", Json.str c),
      ("timestamp", Json.str ts)]) =
    match decodeRFC3339 ts with
    | none => none
    | some t => some { Role := r, Content := c, Timestamp := t } := rfl

/-- Evaluation of `decodeConversation` on an encoder-shaped object. -/
theorem decodeConversation_enc (msgs : List Json) (t : String) :
    decodeConversation (Json.obj [("messages", Json.arr msgs), ("title", Json.str t)]) =
    match mapMo decodeMessage msgs with
    | none => none
    | some ms => some { Messages := ms, Title := t } := rfl

/-- Evaluation of `decodeConversationList` on an encoder-shaped object. -/
theorem decodeConversationList_enc (v : Rat) (convs : List Json) :
    decodeConversationList (Json.obj [("version", Json.num v),
      ("conversations", Json.arr convs)]) =
    match mapMo decodeConversation convs with
    | none => none
    | some cs => some { Version := v, Conversations := cs } := rfl

/-- Decoding inverts a successful `Message` encode. -/
theorem decode_encode_message (m : Message) (j : Json)
    (h : encodeMessage m = some j) : decodeMessage j = some m := by
  unfold encodeMessage at h
  cases ht : encodeRFC3339 m.Timestamp with
  | none => rw [ht] at h; cases h
  | some ts =>
    rw [ht] at h
    cases h
    rw [decodeMessage_enc, decode_encode_time m.Timestamp ts ht]

/-- Decoding inverts a successful `Conversation` encode. -/
theorem decode_encode_conversation (c : Conversation) (j : Json)
    (h : encodeConversation c = some j) : decodeConversation j = some c := by
  unfold encodeConversation at h
  cases hm : mapMo encodeMessage c.Messages with
  | none => rw [hm] at h; cases h
  | some msgs =>
    rw [hm] at h
    cases h
    rw [decodeConversation_enc,
      mapMo_inv encodeMessage decodeMessage decode_encode_message c.Messages msgs hm]

/-- Decoding inverts a successful Archive (`ConversationList`) encode. -/
theorem decode_encode_archive (a : ConversationList) (j : Json)
    (h : encodeConversationList a = some j) : decodeConversationList j = some a := by
  unfold encodeConversationList at h
  cases hm : mapMo encodeConversation a.Conversations with
  | none => rw [hm] at h; cases h
  | some convs =>
    rw [hm] at h
    cases h
    rw [decodeConversationList_enc,
      mapMo_inv encodeConversation decodeConversation decode_encode_conversation
        a.Conversations convs hm]

/-! ## File-system lemmas -/

theorem fsGet_fsSet (fs : FS) (p q : String) (fi : FileInfo) :
    fsGet (fsSet fs p fi) q = if q = p then some fi else fsGet fs q := by
  induction fs with
  | nil =>
    by_cases h : q = p
    · subst h; simp [fsSet, fsGet]
    · simp [fsSet, fsGet, h, Ne.symm h]
  | cons hd tl ih =>
    obtain ⟨r, g⟩ := hd
    by_cases hrp : r = p
    · subst hrp
      by_cases hq : q = r
      · subst hq; simp [fsSet, fsGet]
      · simp [fsSet, fsGet, hq, Ne.symm hq]
    · by_cases hq : q = r
      · subst hq
        simp [fsSet, fsGet, hrp, Ne.symm hrp]
      · simp [fsSet, fsGet, hrp, hq, Ne.symm hq, ih]

theorem whaleResult_fst (p : FS × WhaleOut) (mk : String → SaveOut) :
    (whaleResult p mk).1 = p.1 := by
  obtain ⟨fs', out⟩ := p
  cases out <;> rfl

/-- `failWhale` either leaves the file system unchanged (temp creation
failed) or adds/overwrites exactly the temp file. -/
theorem failWhale_fst (fs : FS) (w : Bytes) (c : Conversation) (t : String) (k : Bool) :
    (failWhale fs w c t k).1 = fs ∨
    ∃ d, (failWhale fs w c t k).1 =
      fsSet fs t { data := d, readBehavior := ReadBehavior.ok, writable := true } := by
  unfold failWhale
  cases k with
  | false => left; rfl
  | true =>
    by_cases hw : byteLen w > 0
    · right; exact ⟨w, by simp [hw]⟩
    · cases hm : marshalConversation c with
      | none => right; refine ⟨Bytes.nil, ?_⟩; simp [hw, hm]
      | some fb => right; refine ⟨fb, ?_⟩; simp [hw, hm]

/-! ## Claims -/

/-- C3: for every Archive value A whose encoding succeeds — which includes
every valid Archive, since `encode` must not fail on valid in-memory
structures — decoding the encoded document yields A back structurally: same
version, same conversations, same message order and fields. -/
theorem c3_archive_roundtrip (A : ConversationList) (j : Json)
    (h : encodeConversationList A = some j) : decodeConversationList j = some A :=
  decode_encode_archive A j h

/-- Witness for C3: the round-trip evaluated at a concrete one-conversation
archive. -/
theorem c3_witness :
    decodeConversationList ((encodeConversationList wArch).getD Json.null) = some wArch :=
  c3_archive_roundtrip wArch ((encodeConversationList wArch).getD Json.null) rfl

/-- C1 counterexample: for a conversation whose timestamp year is 10000,
`time.Time.MarshalJSON` fails, so the fail whale's fallback marshal panics
(`"the fail whale failed marshalling data"`): `saveConversation` on a corrupt
archive then ends in a panic that names no recovery file, against the claim
that every Conversation is recovered under an `ArchiveUnavailableError`. -/
theorem c1_counterexample :
    (saveConversation wFS1 "a.json" wBadConv "tempfile-0" true).2 = SaveOut.fatalMarshal ∧
    SaveOut.namesRecovery (saveConversation wFS1 "a.json" wBadConv "tempfile-0" true).2 = false :=
  ⟨rfl, rfl⟩

/-- C1 (amended): for every archive file whose existing content is non-empty
bytes that do not decode, and every Conversation whose own encoding succeeds,
`saveConversation` panics naming the recovery temp file, and that file's
content decodes to exactly the new Conversation (alone). -/
theorem c1_corrupt_archive_recovery (fs : FS) (filePath tempName : String)
    (convo : Conversation) (fi : FileInfo) (cb : Json)
    (hfi : fsGet fs filePath = some fi)
    (hrb : fi.readBehavior = ReadBehavior.ok)
    (hne : byteLen fi.data ≠ 0)
    (hdec : unmarshalArchive fi.data = none)
    (hm : encodeConversation convo = some cb) :
    saveConversation fs filePath convo tempName true =
      (fsSet fs tempName
        { data := Bytes.jsonText cb, readBehavior := ReadBehavior.ok, writable := true },
       SaveOut.panicDecode tempName) ∧
    decodeConversation cb = some convo := by
  constructor
  · have hread : readFile fs filePath = (fi.data, ReadErr.ok) := by
      simp [readFile, hfi, hrb]
    have hmc : marshalConversation convo = some (Bytes.jsonText cb) := by
      simp [marshalConversation, hm]
    simp only [saveConversation, hread]
    rw [if_neg (by simp [hne]), if_neg (by decide)]
    simp only [saveConversationRest, hdec]
    simp [failWhale, whaleResult, hmc, byteLen]
  · exact decode_encode_conversation convo cb hm

/-- Witness for C1 (amended) at a concrete corrupt archive and encodable
conversation. -/
theorem c1_witness :
    saveConversation wFS1 "a.json" wConv "tempfile-1" true =
      (fsSet wFS1 "tempfile-1"
        { data := Bytes.jsonText ((encodeConversation wConv).getD Json.null),
          readBehavior := ReadBehavior.ok, writable := true },
       SaveOut.panicDecode "tempfile-1") ∧
    decodeConversation ((encodeConversation wConv).getD Json.null) = some wConv :=
  c1_corrupt_archive_recovery wFS1 "a.json" "tempfile-1" wConv
    ⟨Bytes.raw 0, ReadBehavior.ok, true⟩ ((encodeConversation wConv).getD Json.null)
    rfl rfl (by decide) rfl rfl

/-- C2 counterexample: appending a conversation whose timestamp cannot be
encoded to a decodable archive returns success, yet leaves the archive file
truncated to the empty byte string (which does not even decode), not an
archive of N+1 conversations. -/
theorem c2_counterexample :
    (saveConversation wFS2 "c.json" wBadConv "tempfile-0" true).2 = SaveOut.ok ∧
    fsGet (saveConversation wFS2 "c.json" wBadConv "tempfile-0" true).1 "c.json" =
      some ⟨Bytes.nil, ReadBehavior.ok, true⟩ ∧
    unmarshalArchive Bytes.nil = none :=
  ⟨rfl, rfl, rfl⟩

/-- C2 (amended): for every readable, writable archive file decoding to an
Archive A and every new Conversation such that the merged archive encodes
successfully, `saveConversation` succeeds and the file then holds exactly
A's conversations, unchanged and in order, followed by the new one, under
A's version. -/
theorem c2_append_preserves_history (fs : FS) (filePath tempName : String)
    (cwdOk : Bool) (convo : Conversation) (j j' : Json) (A : ConversationList)
    (hfi : fsGet fs filePath = some ⟨Bytes.jsonText j, ReadBehavior.ok, true⟩)
    (hdec : decodeConversationList j = some A)
    (henc : encodeConversationList
      { Version := A.Version, Conversations := A.Conversations ++ [convo] } = some j') :
    saveConversation fs filePath convo tempName cwdOk =
      (fsSet fs filePath ⟨Bytes.jsonText j', ReadBehavior.ok, true⟩, SaveOut.ok) ∧
    decodeConversationList j' =
      some { Version := A.Version, Conversations := A.Conversations ++ [convo] } := by
  constructor
  · have hread : readFile fs filePath = (Bytes.jsonText j, ReadErr.ok) := by
      simp [readFile, hfi]
    have hdec' : unmarshalArchive (Bytes.jsonText j) = some A := by
      simp [unmarshalArchive, parseBytes, hdec]
    have hma : marshalArchive
        { Version := A.Version, Conversations := A.Conversations ++ [convo] } =
        some (Bytes.jsonText j') := by
      simp [marshalArchive, henc]
    simp only [saveConversation, hread]
    rw [if_neg (by simp [byteLen]), if_neg (by decide)]
    simp only [saveConversationRest, hdec', hma]
    simp [writeFile, hfi]
  · exact decode_encode_archive _ _ henc

/-- Witness for C2 (amended): appending a concrete conversation to the
default (empty) archive. -/
theorem c2_witness :
    saveConversation wFS2b "h.json" wConv "tempfile-3" true =
      (fsSet wFS2b "h.json"
        ⟨Bytes.jsonText ((encodeConversationList { Version := 1, Conversations := [wConv] }).getD Json.null),
         ReadBehavior.ok, true⟩,
       SaveOut.ok) ∧
    decodeConversationList
        ((encodeConversationList { Version := 1, Conversations := [wConv] }).getD Json.null) =
      some { Version := 1, Conversations := [wConv] } :=
  c2_append_preserves_history wFS2b "h.json" "tempfile-3" true wConv defaultArchive
    ((encodeConversationList { Version := 1, Conversations := [wConv] }).getD Json.null)
    { Version := 1, Conversations := [] } rfl rfl rfl

/-- C4 (code bug): on an upstream response with zero reply candidates the
assertion `len(choices) >= 0 && len(choices) <= 1` holds (its lower bound is
vacuous), so no error is signalled there, and the code then indexes
`choices[0]` into the empty slice — Go's index-out-of-range runtime panic —
instead of failing with an `ExchangeError`. -/
theorem c4_zero_candidates_indexes_empty :
    llmUpdateConvo wConv { Choices := [] } wTime = ExchangeOutcome.panicIndexOutOfRange ∧
    (List.length ([] : List LlmChoice) ≥ 0 ∧ List.length ([] : List LlmChoice) ≤ 1) :=
  ⟨by simp [llmUpdateConvo], by decide⟩

/-- C5 counterexample: a read failure other than file-not-found that returns
no data — here a permission error opening the file — satisfies the
`len(data) == 0` test, so `saveConversation` proceeds as if the archive were
empty and returns success, instead of failing with an
`ArchiveUnavailableError`. -/
theorem c5_counterexample :
    (saveConversation wFS5 "e.json" wConv "tempfile-0" true).2 = SaveOut.ok ∧
    SaveOut.namesRecovery (saveConversation wFS5 "e.json" wConv "tempfile-0" true).2 = false :=
  ⟨rfl, rfl⟩

/-- C5 (amended): for a read failure other than file-not-found that returns
non-empty partial data, and a Conversation whose encoding succeeds,
`saveConversation` runs the fail whale — writing the new conversation to the
recovery temp file — and panics naming that file; read failures returning no
data are instead treated as an empty archive. -/
theorem c5_partial_read_failure_recovery (fs : FS) (filePath tempName : String)
    (convo : Conversation) (fi : FileInfo) (pd : Bytes) (cb : Json)
    (hfi : fsGet fs filePath = some fi)
    (hrb : fi.readBehavior = ReadBehavior.ioError pd)
    (hne : byteLen pd ≠ 0)
    (hm : encodeConversation convo = some cb) :
    saveConversation fs filePath convo tempName true =
      (fsSet fs tempName
        { data := Bytes.jsonText cb, readBehavior := ReadBehavior.ok, writable := true },
       SaveOut.panicRead tempName) ∧
    decodeConversation cb = some convo := by
  constructor
  · have hread : readFile fs filePath = (pd, ReadErr.other) := by
      simp [readFile, hfi, hrb]
    have hmc : marshalConversation convo = some (Bytes.jsonText cb) := by
      simp [marshalConversation, hm]
    simp only [saveConversation, hread]
    rw [if_neg (by simp [hne]), if_pos (by decide)]
    simp [failWhale, whaleResult, hmc, byteLen]
  · exact decode_encode_conversation convo cb hm

/-- Witness for C5 (amended) at a concrete partially-read file. -/
theorem c5_witness :
    saveConversation wFS5b "f.json" wConv "tempfile-4" true =
      (fsSet wFS5b "tempfile-4"
        { data := Bytes.jsonText ((encodeConversation wConv).getD Json.null),
          readBehavior := ReadBehavior.ok, writable := true },
       SaveOut.panicRead "tempfile-4") ∧
    decodeConversation ((encodeConversation wConv).getD Json.null) = some wConv :=
  c5_partial_read_failure_recovery wFS5b "f.json" "tempfile-4" wConv
    ⟨Bytes.raw 2, ReadBehavior.ioError (Bytes.raw 3), true⟩ (Bytes.raw 3)
    ((encodeConversation wConv).getD Json.null) rfl rfl (by decide) rfl

/-- C6 counterexample: with an unwritable target path and a conversation
whose timestamp cannot be encoded, the discarded merge-marshal error leaves
nil write data, the write fails, and the fail whale's fallback marshal panics
without a recovery file — against the claim that every Conversation is
recovered under an `ArchiveUnavailableError`. -/
theorem c6_counterexample :
    (saveConversation wFS6 "b.json" wBadConv2 "tempfile-0" true).2 = SaveOut.fatalMarshal ∧
    SaveOut.namesRecovery (saveConversation wFS6 "b.json" wBadConv2 "tempfile-0" true).2 = false :=
  ⟨rfl, rfl⟩

/-- C6 (amended): for every unwritable target path holding a decodable
archive A and every Conversation such that the merged archive encodes
successfully, `saveConversation` panics naming the recovery temp file, whose
content decodes to the full merged archive — A's conversations followed by
the new one. -/
theorem c6_unwritable_path_recovery (fs : FS) (filePath tempName : String)
    (convo : Conversation) (j j' : Json) (A : ConversationList)
    (hfi : fsGet fs filePath = some ⟨Bytes.jsonText j, ReadBehavior.ok, false⟩)
    (hdec : decodeConversationList j = some A)
    (henc : encodeConversationList
      { Version := A.Version, Conversations := A.Conversations ++ [convo] } = some j') :
    saveConversation fs filePath convo tempName true =
      (fsSet fs tempName ⟨Bytes.jsonText j', ReadBehavior.ok, true⟩,
       SaveOut.panicWrite tempName) ∧
    decodeConversationList j' =
      some { Version := A.Version, Conversations := A.Conversations ++ [convo] } := by
  constructor
  · have hread : readFile fs filePath = (Bytes.jsonText j, ReadErr.ok) := by
      simp [readFile, hfi]
    have hdec' : unmarshalArchive (Bytes.jsonText j) = some A := by
      simp [unmarshalArchive, parseBytes, hdec]
    have hma : marshalArchive
        { Version := A.Version, Conversations := A.Conversations ++ [convo] } =
        some (Bytes.jsonText j') := by
      simp [marshalArchive, henc]
    simp only [saveConversation, hread]
    rw [if_neg (by simp [byteLen]), if_neg (by decide)]
    simp only [saveConversationRest, hdec', hma]
    simp [writeFile, failWhale, whaleResult, hfi, byteLen]
  · exact decode_encode_archive _ _ henc

/-- Witness for C6 (amended) at a concrete unwritable archive file. -/
theorem c6_witness :
    saveConversation wFS6 "b.json" wConv "tempfile-5" true =
      (fsSet wFS6 "tempfile-5"
        ⟨Bytes.jsonText ((encodeConversationList { Version := 1, Conversations := [wConv] }).getD Json.null),
         ReadBehavior.ok, true⟩,
       SaveOut.panicWrite "tempfile-5") ∧
    decodeConversationList
        ((encodeConversationList { Version := 1, Conversations := [wConv] }).getD Json.null) =
      some { Version := 1, Conversations := [wConv] } :=
  c6_unwritable_path_recovery wFS6 "b.json" "tempfile-5" wConv defaultArchive
    ((encodeConversationList { Version := 1, Conversations := [wConv] }).getD Json.null)
    { Version := 1, Conversations := [] } rfl rfl rfl

/-- C7 (code bug): when encoding the merged archive fails — here because a
timestamp year is outside `[0, 9999]` — the marshal error is discarded
(`writeData, err := json.Marshal(convoList)` is immediately overwritten by
`err = os.WriteFile(...)`): `saveConversation` writes the nil byte slice over
the archive file and returns success, with no recovery path and no
re-signalled error. -/
theorem c7_encode_failure_swallowed :
    encodeConversationList { Version := 1, Conversations := [wBadConv2] } = none ∧
    (saveConversation wFS7 "d.json" wBadConv2 "tempfile-0" true).2 = SaveOut.ok ∧
    fsGet (saveConversation wFS7 "d.json" wBadConv2 "tempfile-0" true).1 "d.json" =
      some ⟨Bytes.nil, ReadBehavior.ok, true⟩ :=
  ⟨rfl, rfl, rfl⟩

/-- C8 counterexample: the appended message's role is taken from the
upstream candidate, not forced to `"assistant"`: a single candidate with
role `"tool"` is appended with role `"tool"`. -/
theorem c8_counterexample :
    llmUpdateConvo { Messages := [], Title := "t" }
      { Choices := [{ Message := { Role := "tool", Content := "ok", Timestamp := wBadTime } }] }
      wTime =
      ExchangeOutcome.ok
        { Messages := [{ Role := "tool", Content := "ok", Timestamp := wTime }], Title := "t" } ∧
    ("tool" : String) ≠ "assistant" :=
  ⟨by simp [llmUpdateConvo], by decide⟩

/-- C8 (amended): for every conversation and every upstream response with
exactly one candidate, the exchange returns the conversation extended by
exactly one message — the candidate's message with its role and content as
supplied upstream and its timestamp freshly set — with all prior messages
unchanged and in order. -/
theorem c8_one_candidate_appends (convo : Conversation) (m : Message) (now : GoTime) :
    llmUpdateConvo convo { Choices := [{ Message := m }] } now =
      ExchangeOutcome.ok
        { convo with Messages := convo.Messages ++ [{ m with Timestamp := now }] } := by
  simp [llmUpdateConvo]

theorem data_append (a b : String) : (a ++ b).data = a.data ++ b.data := rfl

/-- C9: with an explicit path the path is used as given and no directory is
ensured; with no explicit path the archive path is the notes root (the
`notes` environment variable, user-expanded) joined with the fixed
subdirectory `shllm` and the date-named file `TODAY.json`, and that
subdirectory is the one ensured to exist; and `expandUser` sends `"~"` to the
home directory and replaces a leading `"~/"` by joining the remainder onto
the home directory. -/
theorem c9_session_file_path (env : String → String) (home today p : String) :
    (p ≠ "" → getSessionFilePath p env home today = (p, [])) ∧
    getSessionFilePath "" env home today =
      (goJoin (goJoin (expandUser (env "notes") home) "shllm") (today ++ ".json"),
       [goJoin (expandUser (env "notes") home) "shllm"]) ∧
    expandUser "~" home = home ∧
    (∀ rest : String, expandUser ("~/" ++ rest) home = goJoin home rest) := by
  refine ⟨?_, ?_, ?_, ?_⟩
  · intro hp
    simp [getSessionFilePath, hp]
  · simp [getSessionFilePath, notesDir]
  · simp [expandUser]
  · intro rest
    have h1 : ¬("~/" ++ rest = "~") := by
      intro h
      have h2 : (['~', '/'] ++ rest.data : List Char) = ['~'] := by
        have h3 := congrArg String.data h
        rwa [data_append] at h3
      simp at h2
    have h3 : goStartsWith ("~/" ++ rest) "~/" = true := by
      show ("~/").data.isPrefixOf (("~/" ++ rest).data) = true
      rw [data_append, show ("~/" : String).data = ['~', '/'] from rfl]
      simp [List.isPrefixOf]
    unfold expandUser
    rw [if_neg h1, if_pos h3]
    rfl

/-- Witness for C9 at concrete environment, home, date and explicit path. -/
theorem c9_witness :
    getSessionFilePath "explicit.json" wEnv "/home/u" "2024-05-01" = ("explicit.json", []) ∧
    expandUser "~" "/home/u" = "/home/u" :=
  ⟨(c9_session_file_path wEnv "/home/u" "2024-05-01" "explicit.json").1 (by decide),
   (c9_session_file_path wEnv "/home/u" "2024-05-01" "explicit.json").2.2.1⟩

/-- C10: whenever `saveConversation` fails because the existing archive
could not be read (a read error returning partial non-empty data) or could
not be decoded (non-empty undecodable content), the file at the primary path
is left unchanged, and every path other than the recovery temp file's is left
unchanged. -/
theorem c10_error_leaves_primary_unchanged (fs : FS) (filePath : String)
    (convo : Conversation) (tempName : String) (cwdOk : Bool) (fi : FileInfo)
    (hfi : fsGet fs filePath = some fi)
    (hfresh : fsGet fs tempName = none)
    (hfail : (∃ pd, fi.readBehavior = ReadBehavior.ioError pd ∧ byteLen pd ≠ 0) ∨
      (fi.readBehavior = ReadBehavior.ok ∧ byteLen fi.data ≠ 0 ∧
        unmarshalArchive fi.data = none)) :
    fsGet (saveConversation fs filePath convo tempName cwdOk).1 filePath = some fi ∧
    ∀ q, q ≠ tempName →
      fsGet (saveConversation fs filePath convo tempName cwdOk).1 q = fsGet fs q := by
  have hpt : filePath ≠ tempName := by
    intro h
    rw [h, hfresh] at hfi
    cases hfi
  have key : (saveConversation fs filePath convo tempName cwdOk).1 =
      (failWhale fs Bytes.nil convo tempName cwdOk).1 := by
    rcases hfail with ⟨pd, hrb, hne⟩ | ⟨hrb, hne, hdec⟩
    · have hread : readFile fs filePath = (pd, ReadErr.other) := by
        simp [readFile, hfi, hrb]
      simp only [saveConversation, hread]
      rw [if_neg (by simp [hne]), if_pos (by decide)]
      exact whaleResult_fst _ _
    · have hread : readFile fs filePath = (fi.data, ReadErr.ok) := by
        simp [readFile, hfi, hrb]
      simp only [saveConversation, hread]
      rw [if_neg (by simp [hne]), if_neg (by decide)]
      simp only [saveConversationRest, hdec]
      exact whaleResult_fst _ _
  rcases failWhale_fst fs Bytes.nil convo tempName cwdOk with hh | ⟨d, hh⟩
  · constructor
    · rw [key, hh]
      exact hfi
    · intro q hq
      rw [key, hh]
  · constructor
    · rw [key, hh, fsGet_fsSet, if_neg hpt]
      exact hfi
    · intro q hq
      rw [key, hh, fsGet_fsSet, if_neg hq]

/-- Witness for C10 at a concrete undecodable archive file. -/
theorem c10_witness :
    fsGet (saveConversation wFS10 "g.json" wConv "tempfile-2" true).1 "g.json" =
      some ⟨Bytes.raw 4, ReadBehavior.ok, true⟩ ∧
    fsGet (saveConversation wFS10 "g.json" wConv "tempfile-2" true).1 "other.json" =
      fsGet wFS10 "other.json" := by
  have h := c10_error_leaves_primary_unchanged wFS10 "g.json" wConv "tempfile-2" true
    ⟨Bytes.raw 4, ReadBehavior.ok, true⟩ rfl rfl
    (Or.inr ⟨rfl, by decide, rfl⟩)
  exact ⟨h.1, h.2 "other.json" (by decide)⟩

end Shllm
